import Mathlib

/-!
Verification development for the tunnel-core server: a shallow embedding of
the quota limiter, token bucket, domain registry, connection manager and
HTTP router, with theorems settling the behavioural claims about them.

Modelling conventions:
* Go maps are embedded as association lists (`GoMap`) with replace-on-insert
  semantics, matching assignment and `delete` on a Go map.
* `float64` quantities of the token bucket are embedded as rationals; the
  claims under study concern the algorithmic structure, not rounding.
* `time.Time` values are embedded as rationals (seconds); each operation that
  reads the clock takes the current time as an explicit argument.
* Functions that can block forever (a channel operation that no other task
  can unblock, or acquiring a mutex the same task already holds - Go mutexes
  are not reentrant) return `Option`, with `none` standing for the permanent
  block.
-/

namespace TunnelCore

/-- Association-list embedding of a Go map. The key type carries decidable
equality; insertion replaces any previous binding, as Go map assignment does. -/
abbrev GoMap (κ α : Type) : Type := List (κ × α)

namespace GoMap

variable {κ α : Type} [DecidableEq κ]

/-- Lookup of a key, returning the first (and by construction only) binding. -/
def lookupA : GoMap κ α → κ → Option α
  | [], _ => none
  | (k', v) :: rest, k => if k' = k then some v else lookupA rest k

/-- Removal of a key, as Go `delete`. -/
def eraseA : GoMap κ α → κ → GoMap κ α
  | [], _ => []
  | (k', v) :: rest, k => if k' = k then eraseA rest k else (k', v) :: eraseA rest k

/-- Insertion with replacement, as Go map assignment. -/
def insertA (m : GoMap κ α) (k : κ) (v : α) : GoMap κ α :=
  (k, v) :: eraseA m k

/-- Key snapshot, as ranging over a Go map and collecting the keys. -/
def keysA (m : GoMap κ α) : List κ :=
  m.map Prod.fst

theorem lookupA_insertA_self (m : GoMap κ α) (k : κ) (v : α) :
    lookupA (insertA m k v) k = some v := by
  simp [insertA, lookupA]

theorem lookupA_eraseA_self (m : GoMap κ α) (k : κ) :
    lookupA (eraseA m k) k = none := by
  induction m with
  | nil => rfl
  | cons p rest ih =>
    obtain ⟨k', v⟩ := p
    by_cases h : k' = k
    · simp [eraseA, h, ih]
    · simp [eraseA, lookupA, h, ih]

theorem lookupA_eraseA_ne (m : GoMap κ α) {k k' : κ} (h : k ≠ k') :
    lookupA (eraseA m k') k = lookupA m k := by
  induction m with
  | nil => rfl
  | cons p rest ih =>
    obtain ⟨k₀, v⟩ := p
    by_cases h₀ : k₀ = k'
    · subst h₀
      have hne : k₀ ≠ k := fun hk => h hk.symm
      simp [eraseA, lookupA, hne, ih]
    · by_cases h₁ : k₀ = k
      · subst h₁
        simp [eraseA, lookupA, h₀]
      · simp [eraseA, lookupA, h₀, h₁, ih]

theorem lookupA_insertA_ne (m : GoMap κ α) {k k' : κ} (h : k ≠ k') (v : α) :
    lookupA (insertA m k' v) k = lookupA m k := by
  have h' : k' ≠ k := fun hk => h hk.symm
  simp [insertA, lookupA, h', lookupA_eraseA_ne m h]

theorem lookupA_mem {m : GoMap κ α} {k : κ} {v : α}
    (h : lookupA m k = some v) : (k, v) ∈ m := by
  induction m with
  | nil => simp [lookupA] at h
  | cons p rest ih =>
    obtain ⟨k', v'⟩ := p
    by_cases h₀ : k' = k
    · subst h₀
      simp [lookupA] at h
      subst h
      exact List.mem_cons_self _ _
    · simp [lookupA, h₀] at h
      exact List.mem_cons_of_mem _ (ih h)

theorem mem_eraseA {m : GoMap κ α} {k : κ} {p : κ × α}
    (h : p ∈ eraseA m k) : p ∈ m := by
  induction m with
  | nil => simp [eraseA] at h
  | cons q rest ih =>
    obtain ⟨k', v'⟩ := q
    by_cases h₀ : k' = k
    · simp [eraseA, h₀] at h
      exact List.mem_cons_of_mem _ (ih h)
    · simp [eraseA, h₀] at h
      rcases h with h | h
      · simp [h]
      · exact List.mem_cons_of_mem _ (ih h)

theorem lookupA_none_of_keysA_not_mem {m : GoMap κ α} {k : κ}
    (h : k ∉ keysA m) : lookupA m k = none := by
  induction m with
  | nil => rfl
  | cons p rest ih =>
    obtain ⟨k', v⟩ := p
    simp [keysA] at h
    push_neg at h
    have hne : k' ≠ k := fun hk => h.1 hk.symm
    simp [lookupA, hne]
    exact ih (by simp [keysA]; exact h.2)

theorem keysA_mem_of_lookupA {m : GoMap κ α} {k : κ} {v : α}
    (h : lookupA m k = some v) : k ∈ keysA m := by
  induction m with
  | nil => simp [lookupA] at h
  | cons p rest ih =>
    obtain ⟨k', v'⟩ := p
    by_cases h₀ : k' = k
    · simp [keysA, h₀]
    · simp [lookupA, h₀] at h
      simp [keysA]
      exact Or.inr (by simpa [keysA] using ih h)

end GoMap

open GoMap

/-! ## Token bucket (internal/quota/limiter.go) -/

/-- Embeds the `TokenBucket` struct: integer capacity, rational token level
and refill rate, and the time of the last refill. -/
structure TokenBucket where
  capacity : Int
  tokens : ℚ
  refillRate : ℚ
  lastRefill : ℚ
deriving DecidableEq, Repr

namespace TokenBucket

/-- Embeds `NewTokenBucket`: starts full, with rate and capacity from the
configured rate limit. -/
def newTokenBucket (capacity refillRate : Int) (now : ℚ) : TokenBucket :=
  { capacity := capacity
    tokens := (capacity : ℚ)
    refillRate := (refillRate : ℚ)
    lastRefill := now }

/-- Embeds the refill prefix shared by `Allow`, `AllowN` and `GetStats`:
`elapsed = now - lastRefill` is applied as written in the source, with no
clamp for a negative elapsed. -/
def refill (tb : TokenBucket) (now : ℚ) : TokenBucket :=
  let elapsed := now - tb.lastRefill
  { tb with
      tokens := min (tb.capacity : ℚ) (tb.tokens + elapsed * tb.refillRate)
      lastRefill := now }

/-- Embeds `TokenBucket.AllowN`: refill, then consume `n` tokens if the level
reaches `n`. Returns the boolean result and the updated bucket. -/
def allowN (tb : TokenBucket) (n : Int) (now : ℚ) : Bool × TokenBucket :=
  let tb := tb.refill now
  if (n : ℚ) ≤ tb.tokens then
    (true, { tb with tokens := tb.tokens - (n : ℚ) })
  else
    (false, tb)

/-- Embeds `TokenBucket.Allow`: refill, then consume one token if the level
reaches `1.0`. -/
def allow (tb : TokenBucket) (now : ℚ) : Bool × TokenBucket :=
  let tb := tb.refill now
  if (1 : ℚ) ≤ tb.tokens then
    (true, { tb with tokens := tb.tokens - 1 })
  else
    (false, tb)

/-- Embeds `TokenBucket.GetStats`: refills, then reports level and capacity. -/
def getStats (tb : TokenBucket) (now : ℚ) : (ℚ × Int) × TokenBucket :=
  let tb := tb.refill now
  ((tb.tokens, tb.capacity), tb)

end TokenBucket

theorem GoMap.mem_insertA {κ α : Type} [DecidableEq κ] {m : GoMap κ α} {k : κ}
    {v : α} {p : κ × α} (h : p ∈ GoMap.insertA m k v) : p = (k, v) ∨ p ∈ m := by
  rcases List.mem_cons.mp h with h | h
  · exact Or.inl h
  · exact Or.inr (GoMap.mem_eraseA h)

/-! ## Quota limiter (internal/quota/limiter.go) -/

/-- Embeds the `AgentLimit` struct. -/
structure AgentLimit where
  agentID : String
  maxStreams : Int
  maxBandwidth : Int
  rateLimit : Int
  tokenBucket : TokenBucket
  currentStreams : Int
  lastReset : ℚ
deriving DecidableEq, Repr

/-- Embeds the `DomainLimit` struct. -/
structure DomainLimit where
  domain : String
  maxStreams : Int
  rateLimit : Int
  tokenBucket : TokenBucket
  currentStreams : Int
  lastReset : ℚ
deriving DecidableEq, Repr

/-- Embeds the `Limiter` struct: the two key-addressed tables plus the global
maxima. -/
structure Limiter where
  agentLimits : GoMap String AgentLimit
  domainLimits : GoMap String DomainLimit
  maxConnections : Int
  maxStreams : Int
deriving DecidableEq, Repr

/-- Error kinds of the quota package (quota errors.go). -/
inductive QuotaErr
  | agentStreamLimitExceeded
  | domainStreamLimitExceeded
  | agentRateLimitExceeded
  | domainRateLimitExceeded
deriving DecidableEq, Repr

namespace Limiter

open GoMap

/-- Embeds `NewLimiter`. -/
def newLimiter (maxConnections maxStreams : Int) : Limiter :=
  { agentLimits := [], domainLimits := []
    maxConnections := maxConnections, maxStreams := maxStreams }

/-- Embeds `SetAgentLimit`: installs or replaces the limit with a full bucket
and a zero stream count (the Go struct literal leaves `CurrentStreams` zero). -/
def setAgentLimit (l : Limiter) (agentID : String)
    (maxStreams maxBandwidth rateLimit : Int) (now : ℚ) : Limiter :=
  let limit : AgentLimit :=
    { agentID := agentID, maxStreams := maxStreams
      maxBandwidth := maxBandwidth, rateLimit := rateLimit
      tokenBucket := TokenBucket.newTokenBucket rateLimit rateLimit now
      currentStreams := 0, lastReset := now }
  { l with agentLimits := insertA l.agentLimits agentID limit }

/-- Embeds `SetDomainLimit`. -/
def setDomainLimit (l : Limiter) (domain : String)
    (maxStreams rateLimit : Int) (now : ℚ) : Limiter :=
  let limit : DomainLimit :=
    { domain := domain, maxStreams := maxStreams, rateLimit := rateLimit
      tokenBucket := TokenBucket.newTokenBucket rateLimit rateLimit now
      currentStreams := 0, lastReset := now }
  { l with domainLimits := insertA l.domainLimits domain limit }

/-- Embeds `CheckAgentStreamLimit`: absence of a configured limit allows. -/
def checkAgentStreamLimit (l : Limiter) (agentID : String) : Option QuotaErr :=
  match lookupA l.agentLimits agentID with
  | none => none
  | some limit =>
      if limit.maxStreams ≤ limit.currentStreams then
        some .agentStreamLimitExceeded
      else
        none

/-- Embeds `CheckDomainStreamLimit`. -/
def checkDomainStreamLimit (l : Limiter) (domain : String) : Option QuotaErr :=
  match lookupA l.domainLimits domain with
  | none => none
  | some limit =>
      if limit.maxStreams ≤ limit.currentStreams then
        some .domainStreamLimitExceeded
      else
        none

/-- Embeds `CheckAgentRateLimit`: consults (and thereby mutates) the token
bucket of the configured limit. -/
def checkAgentRateLimit (l : Limiter) (agentID : String) (now : ℚ) :
    Option QuotaErr × Limiter :=
  match lookupA l.agentLimits agentID with
  | none => (none, l)
  | some limit =>
      let r := limit.tokenBucket.allow now
      let limit' := { limit with tokenBucket := r.2 }
      let l' := { l with agentLimits := insertA l.agentLimits agentID limit' }
      (if r.1 then none else some .agentRateLimitExceeded, l')

/-- Embeds `CheckDomainRateLimit`. -/
def checkDomainRateLimit (l : Limiter) (domain : String) (now : ℚ) :
    Option QuotaErr × Limiter :=
  match lookupA l.domainLimits domain with
  | none => (none, l)
  | some limit =>
      let r := limit.tokenBucket.allow now
      let limit' := { limit with tokenBucket := r.2 }
      let l' := { l with domainLimits := insertA l.domainLimits domain limit' }
      (if r.1 then none else some .domainRateLimitExceeded, l')

/-- Embeds `CheckRequest`: agent rate, domain rate, agent stream cap, domain
stream cap, first failure wins. -/
def checkRequest (l : Limiter) (agentID domain : String) (now : ℚ) :
    Option QuotaErr × Limiter :=
  match checkAgentRateLimit l agentID now with
  | (some e, l₁) => (some e, l₁)
  | (none, l₁) =>
  match checkDomainRateLimit l₁ domain now with
  | (some e, l₂) => (some e, l₂)
  | (none, l₂) =>
  match checkAgentStreamLimit l₂ agentID with
  | some e => (some e, l₂)
  | none =>
  match checkDomainStreamLimit l₂ domain with
  | some e => (some e, l₂)
  | none => (none, l₂)

/-- Embeds `AcquireStream`: re-runs both stream caps, then increments the
counter of each configured limit. -/
def acquireStream (l : Limiter) (agentID domain : String) :
    Except QuotaErr Limiter :=
  match checkAgentStreamLimit l agentID with
  | some e => .error e
  | none =>
  match checkDomainStreamLimit l domain with
  | some e => .error e
  | none =>
    let l₁ :=
      match lookupA l.agentLimits agentID with
      | some limit =>
          let limit' := { limit with currentStreams := limit.currentStreams + 1 }
          { l with agentLimits := insertA l.agentLimits agentID limit' }
      | none => l
    let l₂ :=
      match lookupA l₁.domainLimits domain with
      | some limit =>
          let limit' := { limit with currentStreams := limit.currentStreams + 1 }
          { l₁ with domainLimits := insertA l₁.domainLimits domain limit' }
      | none => l₁
    .ok l₂

/-- Embeds `ReleaseStream`: decrements each configured counter, clamped at
zero by the guard in the source. -/
def releaseStream (l : Limiter) (agentID domain : String) : Limiter :=
  let l₁ :=
    match lookupA l.agentLimits agentID with
    | some limit =>
        if 0 < limit.currentStreams then
          let limit' := { limit with currentStreams := limit.currentStreams - 1 }
          { l with agentLimits := insertA l.agentLimits agentID limit' }
        else l
    | none => l
  match lookupA l₁.domainLimits domain with
  | some limit =>
      if 0 < limit.currentStreams then
        let limit' := { limit with currentStreams := limit.currentStreams - 1 }
        { l₁ with domainLimits := insertA l₁.domainLimits domain limit' }
      else l₁
  | none => l₁

/-- Embeds `ResetAgentLimits`. -/
def resetAgentLimits (l : Limiter) (agentID : String) (now : ℚ) : Limiter :=
  match lookupA l.agentLimits agentID with
  | some limit =>
      let tb' := TokenBucket.newTokenBucket limit.rateLimit limit.rateLimit now
      let limit' :=
        { limit with currentStreams := 0, tokenBucket := tb', lastReset := now }
      { l with agentLimits := insertA l.agentLimits agentID limit' }
  | none => l

/-- Embeds `ResetDomainLimits`. -/
def resetDomainLimits (l : Limiter) (domain : String) (now : ℚ) : Limiter :=
  match lookupA l.domainLimits domain with
  | some limit =>
      let tb' := TokenBucket.newTokenBucket limit.rateLimit limit.rateLimit now
      let limit' :=
        { limit with currentStreams := 0, tokenBucket := tb', lastReset := now }
      { l with domainLimits := insertA l.domainLimits domain limit' }
  | none => l

end Limiter

/-- A read-write mutex as a state: the number of read holders and whether the
write lock is held. Operations that the Go runtime turns into a fatal error
(releasing a lock mode that is not held) return `none`. -/
structure RWMutex where
  readers : Nat
  writerHeld : Bool
deriving DecidableEq, Repr

namespace RWMutex

/-- Read-lock acquisition; blocks (never returns) while the writer holds it. -/
def rLock (m : RWMutex) : Option RWMutex :=
  if m.writerHeld then none else some { m with readers := m.readers + 1 }

/-- Read-lock release; a fatal runtime error if no reader holds the lock. -/
def rUnlock (m : RWMutex) : Option RWMutex :=
  if 0 < m.readers then some { m with readers := m.readers - 1 } else none

/-- Write-lock release; a fatal runtime error if the write lock is not held,
which is exactly what Go does on `Unlock` of an `RWMutex` that is only
read-locked. -/
def unlock (m : RWMutex) : Option RWMutex :=
  if m.writerHeld then some { m with writerHeld := false } else none

end RWMutex

namespace Limiter

open GoMap

/-- Embeds `GetAgentLimit` together with its use of the table lock: `RLock`
on entry, deferred `RUnlock`. Returns `none` if the call cannot return
normally. -/
def getAgentLimit (l : Limiter) (mu : RWMutex) (agentID : String) :
    Option (Option AgentLimit × RWMutex) := do
  let mu₁ ← mu.rLock
  let res := lookupA l.agentLimits agentID
  let mu₂ ← mu₁.rUnlock
  pure (res, mu₂)

/-- Embeds `GetDomainLimit` together with its use of the table lock: the
source pairs `RLock` with a deferred `Unlock` (not `RUnlock`). Returns `none`
if the call cannot return normally. -/
def getDomainLimit (l : Limiter) (mu : RWMutex) (domain : String) :
    Option (Option DomainLimit × RWMutex) := do
  let mu₁ ← mu.rLock
  let res := lookupA l.domainLimits domain
  let mu₂ ← mu₁.unlock
  pure (res, mu₂)

end Limiter

/-- The mutating limiter operations, for quantifying over operation
sequences. -/
inductive LimiterOp
  | setAgentLimit (agentID : String) (maxStreams maxBandwidth rateLimit : Int) (now : ℚ)
  | setDomainLimit (domain : String) (maxStreams rateLimit : Int) (now : ℚ)
  | checkRequest (agentID domain : String) (now : ℚ)
  | acquireStream (agentID domain : String)
  | releaseStream (agentID domain : String)
  | resetAgentLimits (agentID : String) (now : ℚ)
  | resetDomainLimits (domain : String) (now : ℚ)

/-- Applies one limiter operation; a failed `acquireStream` leaves the state
unchanged, as in the source. -/
def applyLimiterOp (l : Limiter) : LimiterOp → Limiter
  | .setAgentLimit a ms mb rl now => l.setAgentLimit a ms mb rl now
  | .setDomainLimit d ms rl now => l.setDomainLimit d ms rl now
  | .checkRequest a d now => (l.checkRequest a d now).2
  | .acquireStream a d =>
      match l.acquireStream a d with
      | .ok l' => l'
      | .error _ => l
  | .releaseStream a d => l.releaseStream a d
  | .resetAgentLimits a now => l.resetAgentLimits a now
  | .resetDomainLimits d now => l.resetDomainLimits d now

/-- The stream counter of the configured agent limit, if any. -/
def agentCurrentStreams (l : Limiter) (agentID : String) : Option Int :=
  (GoMap.lookupA l.agentLimits agentID).map (fun al => al.currentStreams)

/-- The stream counter of the configured domain limit, if any. -/
def domainCurrentStreams (l : Limiter) (domain : String) : Option Int :=
  (GoMap.lookupA l.domainLimits domain).map (fun dl => dl.currentStreams)

/-- Every configured counter of the limiter is non-negative. -/
def LimiterNonneg (l : Limiter) : Prop :=
  (∀ p ∈ l.agentLimits, 0 ≤ (Prod.snd p).currentStreams) ∧
  (∀ p ∈ l.domainLimits, 0 ≤ (Prod.snd p).currentStreams)

theorem forall_mem_insertA {κ α : Type} [DecidableEq κ] {m : GoMap κ α}
    {P : κ × α → Prop} (hm : ∀ p ∈ m, P p) {k : κ} {v : α} (hv : P (k, v)) :
    ∀ p ∈ GoMap.insertA m k v, P p := by
  intro p hp
  rcases GoMap.mem_insertA hp with rfl | hp'
  · exact hv
  · exact hm p hp'

theorem nonneg_checkAgentRateLimit (l : Limiter) (a : String) (now : ℚ)
    (h : LimiterNonneg l) : LimiterNonneg (Limiter.checkAgentRateLimit l a now).2 := by
  unfold Limiter.checkAgentRateLimit
  cases hl : lookupA l.agentLimits a with
  | none => exact h
  | some limit =>
    refine ⟨forall_mem_insertA h.1 ?_, h.2⟩
    exact h.1 (a, limit) (GoMap.lookupA_mem hl)

theorem nonneg_checkDomainRateLimit (l : Limiter) (d : String) (now : ℚ)
    (h : LimiterNonneg l) : LimiterNonneg (Limiter.checkDomainRateLimit l d now).2 := by
  unfold Limiter.checkDomainRateLimit
  cases hl : lookupA l.domainLimits d with
  | none => exact h
  | some limit =>
    refine ⟨h.1, forall_mem_insertA h.2 ?_⟩
    exact h.2 (d, limit) (GoMap.lookupA_mem hl)

theorem nonneg_checkRequest (l : Limiter) (a d : String) (now : ℚ)
    (h : LimiterNonneg l) : LimiterNonneg (Limiter.checkRequest l a d now).2 := by
  have h₁ := nonneg_checkAgentRateLimit l a now h
  unfold Limiter.checkRequest
  split
  · rename_i e l₁ heq
    rw [heq] at h₁
    simpa using h₁
  · rename_i l₁ heq
    rw [heq] at h₁
    have h₁' : LimiterNonneg l₁ := by simpa using h₁
    have h₂ := nonneg_checkDomainRateLimit l₁ d now h₁'
    split
    · rename_i e l₂ heq₂
      rw [heq₂] at h₂
      simpa using h₂
    · rename_i l₂ heq₂
      rw [heq₂] at h₂
      have h₂' : LimiterNonneg l₂ := by simpa using h₂
      split
      · simpa using h₂'
      · split
        · simpa using h₂'
        · simpa using h₂'

theorem nonneg_acquireStream {l l' : Limiter} {a d : String}
    (h : LimiterNonneg l) (hacq : Limiter.acquireStream l a d = .ok l') :
    LimiterNonneg l' := by
  unfold Limiter.acquireStream at hacq
  cases hca : Limiter.checkAgentStreamLimit l a with
  | some e => rw [hca] at hacq; exact absurd hacq (by simp)
  | none =>
    rw [hca] at hacq
    cases hcd : Limiter.checkDomainStreamLimit l d with
    | some e => rw [hcd] at hacq; exact absurd hacq (by simp)
    | none =>
      rw [hcd] at hacq
      simp only [Except.ok.injEq] at hacq
      subst hacq
      cases hla : lookupA l.agentLimits a with
      | none =>
        simp only [hla]
        cases hld : lookupA l.domainLimits d with
        | none => simpa using h
        | some dl =>
          simp only [hld]
          refine ⟨h.1, forall_mem_insertA h.2 ?_⟩
          have := h.2 (d, dl) (GoMap.lookupA_mem hld)
          simp at this ⊢
          omega
      | some al =>
        simp only [hla]
        have hagent : ∀ p ∈ insertA l.agentLimits a
            { al with currentStreams := al.currentStreams + 1 },
            0 ≤ (Prod.snd p).currentStreams := by
          refine forall_mem_insertA h.1 ?_
          have := h.1 (a, al) (GoMap.lookupA_mem hla)
          simp at this ⊢
          omega
        cases hld : lookupA l.domainLimits d with
        | none => simpa using ⟨hagent, h.2⟩
        | some dl =>
          simp only [hld]
          refine ⟨hagent, forall_mem_insertA h.2 ?_⟩
          have := h.2 (d, dl) (GoMap.lookupA_mem hld)
          simp at this ⊢
          omega

theorem nonneg_releaseStream (l : Limiter) (a d : String)
    (h : LimiterNonneg l) : LimiterNonneg (Limiter.releaseStream l a d) := by
  unfold Limiter.releaseStream
  cases hla : lookupA l.agentLimits a with
  | none =>
    simp only [hla]
    cases hld : lookupA l.domainLimits d with
    | none => simpa using h
    | some dl =>
      simp only [hld]
      by_cases hpos : 0 < dl.currentStreams
      · simp only [hpos, if_true]
        refine ⟨h.1, forall_mem_insertA h.2 ?_⟩
        simp
        omega
      · simp only [hpos, if_false]
        exact h
  | some al =>
    simp only [hla]
    by_cases hposa : 0 < al.currentStreams
    · simp only [hposa, if_true]
      have hagent : ∀ p ∈ insertA l.agentLimits a
          { al with currentStreams := al.currentStreams - 1 },
          0 ≤ (Prod.snd p).currentStreams := by
        refine forall_mem_insertA h.1 ?_
        simp
        omega
      cases hld : lookupA l.domainLimits d with
      | none => simpa using ⟨hagent, h.2⟩
      | some dl =>
        simp only [hld]
        by_cases hpos : 0 < dl.currentStreams
        · simp only [hpos, if_true]
          refine ⟨hagent, forall_mem_insertA h.2 ?_⟩
          simp
          omega
        · simp only [hpos, if_false]
          exact ⟨hagent, h.2⟩
    · simp only [hposa, if_false]
      cases hld : lookupA l.domainLimits d with
      | none => simpa using h
      | some dl =>
        simp only [hld]
        by_cases hpos : 0 < dl.currentStreams
        · simp only [hpos, if_true]
          refine ⟨h.1, forall_mem_insertA h.2 ?_⟩
          simp
          omega
        · simp only [hpos, if_false]
          exact h

theorem nonneg_setAgentLimit (l : Limiter) (a : String) (ms mb rl : Int) (now : ℚ)
    (h : LimiterNonneg l) : LimiterNonneg (Limiter.setAgentLimit l a ms mb rl now) := by
  exact ⟨forall_mem_insertA h.1 (by simp), h.2⟩

theorem nonneg_setDomainLimit (l : Limiter) (d : String) (ms rl : Int) (now : ℚ)
    (h : LimiterNonneg l) : LimiterNonneg (Limiter.setDomainLimit l d ms rl now) := by
  exact ⟨h.1, forall_mem_insertA h.2 (by simp)⟩

theorem nonneg_resetAgentLimits (l : Limiter) (a : String) (now : ℚ)
    (h : LimiterNonneg l) : LimiterNonneg (Limiter.resetAgentLimits l a now) := by
  unfold Limiter.resetAgentLimits
  cases hl : lookupA l.agentLimits a with
  | none => exact h
  | some limit => exact ⟨forall_mem_insertA h.1 (by simp), h.2⟩

theorem nonneg_resetDomainLimits (l : Limiter) (d : String) (now : ℚ)
    (h : LimiterNonneg l) : LimiterNonneg (Limiter.resetDomainLimits l d now) := by
  unfold Limiter.resetDomainLimits
  cases hl : lookupA l.domainLimits d with
  | none => exact h
  | some limit => exact ⟨h.1, forall_mem_insertA h.2 (by simp)⟩

/-! ## Sample limiter states for concrete evaluation -/

/-- A limiter with one configured agent limit and one configured domain
limit, both with room for five streams. -/
def limSample : Limiter :=
  Limiter.setDomainLimit
    (Limiter.setAgentLimit (Limiter.newLimiter 10 100) "agent-1" 5 0 2 0)
    "example.localhost" 5 2 0

/-- The state after a successful stream acquisition on `limSample`. -/
def limSampleAcq : Limiter :=
  match Limiter.acquireStream limSample "agent-1" "example.localhost" with
  | .ok l' => l'
  | .error _ => limSample

/-- C6 counterexample: the code disagrees with the claimed token-bucket
semantics at concrete inputs. With `capacity = 0` the call `allow_n(0)`
returns true, although the claim requires every call to return false when
`capacity ≤ 0`; and with a negative elapsed (`lastRefill = 10`, `now = 7`)
the refill subtracts tokens instead of treating the elapsed time as zero, so
`allow_n(3)` on a bucket holding five tokens returns false where the claimed
semantics would return true. -/
theorem tokenBucket_claim_counterexample :
    (TokenBucket.allowN
      { capacity := 0, tokens := 0, refillRate := 1, lastRefill := 0 } 0 0).1
        = true ∧
    (TokenBucket.refill
      { capacity := 10, tokens := 5, refillRate := 1, lastRefill := 10 } 7).tokens
        = 2 ∧
    (TokenBucket.allowN
      { capacity := 10, tokens := 5, refillRate := 1, lastRefill := 10 } 3 7).1
        = false := by
  refine ⟨?_, ?_, ?_⟩
  · norm_num [TokenBucket.allowN, TokenBucket.refill, min_def]
  · norm_num [TokenBucket.refill, min_def]
  · norm_num [TokenBucket.allowN, TokenBucket.refill, min_def]

/-- C6 (amended): every `allow_n(n)` call refills with the raw elapsed time
(`tokens := min(capacity, tokens + elapsed * refill_rate)`, with a negative
elapsed applied as-is), returns true and subtracts `n` exactly when the
refilled level reaches `n`, and otherwise returns false keeping the refilled
level; when `capacity ≤ 0`, `allow()` and every `allow_n(n)` with `n ≥ 1`
return false. -/
theorem tokenBucket_allowN_spec (tb : TokenBucket) (n : Int) (now : ℚ) :
    (tb.refill now).tokens
        = min (tb.capacity : ℚ) (tb.tokens + (now - tb.lastRefill) * tb.refillRate) ∧
    ((tb.allowN n now).1 = true ↔ (n : ℚ) ≤ (tb.refill now).tokens) ∧
    ((tb.allowN n now).1 = true →
      (tb.allowN n now).2.tokens = (tb.refill now).tokens - (n : ℚ)) ∧
    ((tb.allowN n now).1 = false →
      (tb.allowN n now).2.tokens = (tb.refill now).tokens) ∧
    (tb.capacity ≤ 0 → 1 ≤ n → (tb.allowN n now).1 = false) ∧
    (tb.capacity ≤ 0 → (tb.allow now).1 = false) := by
  have hunf : tb.allowN n now =
      if (n : ℚ) ≤ (tb.refill now).tokens then
        (true, { tb.refill now with tokens := (tb.refill now).tokens - (n : ℚ) })
      else
        (false, tb.refill now) := rfl
  have hunf₁ : tb.allow now =
      if (1 : ℚ) ≤ (tb.refill now).tokens then
        (true, { tb.refill now with tokens := (tb.refill now).tokens - 1 })
      else
        (false, tb.refill now) := rfl
  have htok : (tb.refill now).tokens ≤ (tb.capacity : ℚ) := min_le_left _ _
  refine ⟨rfl, ?_, ?_, ?_, ?_, ?_⟩
  · rw [hunf]
    by_cases h : (n : ℚ) ≤ (tb.refill now).tokens <;> simp [h]
  · rw [hunf]
    by_cases h : (n : ℚ) ≤ (tb.refill now).tokens <;> simp [h]
  · rw [hunf]
    by_cases h : (n : ℚ) ≤ (tb.refill now).tokens <;> simp [h]
  · intro hcap hn
    have h0 : (tb.capacity : ℚ) ≤ 0 := by exact_mod_cast hcap
    have h1 : (1 : ℚ) ≤ (n : ℚ) := by exact_mod_cast hn
    have hlt : ¬ ((n : ℚ) ≤ (tb.refill now).tokens) := by
      intro hle
      linarith
    rw [hunf]
    simp [hlt]
  · intro hcap
    have h0 : (tb.capacity : ℚ) ≤ 0 := by exact_mod_cast hcap
    have hlt : ¬ ((1 : ℚ) ≤ (tb.refill now).tokens) := by
      intro hle
      linarith
    rw [hunf₁]
    simp [hlt]

/-- Concrete instantiation of the amended token-bucket theorem: a bucket
with zero capacity denies `allow_n(1)` and `allow()`. -/
theorem tokenBucket_allowN_spec_witness :
    (TokenBucket.allowN
      { capacity := 0, tokens := 0, refillRate := 1, lastRefill := 0 } 1 0).1
        = false ∧
    (TokenBucket.allow
      { capacity := 0, tokens := 0, refillRate := 1, lastRefill := 0 } 0).1
        = false :=
  ⟨(tokenBucket_allowN_spec
      { capacity := 0, tokens := 0, refillRate := 1, lastRefill := 0 } 1 0).2.2.2.2.1
      (by norm_num) (by norm_num),
   (tokenBucket_allowN_spec
      { capacity := 0, tokens := 0, refillRate := 1, lastRefill := 0 } 1 0).2.2.2.2.2
      (by norm_num)⟩

/-- C7: starting from a limiter whose configured counters are all
non-negative, a successful `acquire_stream` immediately followed by
`release_stream` restores the stream counter of the agent and of the domain
to their original values, and every limiter operation preserves
non-negativity of every configured counter. -/
theorem limiter_acquire_release_identity :
    (∀ (l : Limiter) (a d : String) (l' : Limiter),
        LimiterNonneg l → Limiter.acquireStream l a d = .ok l' →
        agentCurrentStreams (Limiter.releaseStream l' a d) a
            = agentCurrentStreams l a ∧
        domainCurrentStreams (Limiter.releaseStream l' a d) d
            = domainCurrentStreams l d) ∧
    (∀ (l : Limiter) (op : LimiterOp),
        LimiterNonneg l → LimiterNonneg (applyLimiterOp l op)) := by
  constructor
  · intro l a d l' hnn hacq
    obtain ⟨la, ld, mc, ms⟩ := l
    unfold Limiter.acquireStream at hacq
    cases hca : Limiter.checkAgentStreamLimit ⟨la, ld, mc, ms⟩ a with
    | some e => rw [hca] at hacq; exact absurd hacq (by simp)
    | none =>
      rw [hca] at hacq
      cases hcd : Limiter.checkDomainStreamLimit ⟨la, ld, mc, ms⟩ d with
      | some e => rw [hcd] at hacq; exact absurd hacq (by simp)
      | none =>
        rw [hcd] at hacq
        simp only [Except.ok.injEq] at hacq
        subst hacq
        cases hla : lookupA la a with
        | none =>
          cases hld : lookupA ld d with
          | none =>
            simp [Limiter.releaseStream, agentCurrentStreams,
              domainCurrentStreams, hla, hld]
          | some dl =>
            have hdl := hnn.2 (d, dl) (GoMap.lookupA_mem hld)
            simp only at hdl
            simp [Limiter.releaseStream, agentCurrentStreams,
              domainCurrentStreams, hla, hld, GoMap.lookupA_insertA_self,
              show (0 : Int) < dl.currentStreams + 1 by omega]
        | some al =>
          have hal := hnn.1 (a, al) (GoMap.lookupA_mem hla)
          simp only at hal
          cases hld : lookupA ld d with
          | none =>
            simp [Limiter.releaseStream, agentCurrentStreams,
              domainCurrentStreams, hla, hld, GoMap.lookupA_insertA_self,
              show (0 : Int) < al.currentStreams + 1 by omega]
          | some dl =>
            have hdl := hnn.2 (d, dl) (GoMap.lookupA_mem hld)
            simp only at hdl
            simp [Limiter.releaseStream, agentCurrentStreams,
              domainCurrentStreams, hla, hld, GoMap.lookupA_insertA_self,
              show (0 : Int) < al.currentStreams + 1 by omega,
              show (0 : Int) < dl.currentStreams + 1 by omega]
  · intro l op hnn
    cases op with
    | setAgentLimit a ms mb rl now => exact nonneg_setAgentLimit l a ms mb rl now hnn
    | setDomainLimit d ms rl now => exact nonneg_setDomainLimit l d ms rl now hnn
    | checkRequest a d now => exact nonneg_checkRequest l a d now hnn
    | acquireStream a d =>
      cases hacq : Limiter.acquireStream l a d with
      | ok l' =>
        simp only [applyLimiterOp, hacq]
        exact nonneg_acquireStream hnn hacq
      | error e =>
        simp only [applyLimiterOp, hacq]
        exact hnn
    | releaseStream a d => exact nonneg_releaseStream l a d hnn
    | resetAgentLimits a now => exact nonneg_resetAgentLimits l a now hnn
    | resetDomainLimits d now => exact nonneg_resetDomainLimits l d now hnn

/-- Concrete instantiation of the acquire/release identity on a limiter
with one agent and one domain limit configured. -/
theorem limiter_acquire_release_identity_witness :
    (agentCurrentStreams
        (Limiter.releaseStream limSampleAcq "agent-1" "example.localhost") "agent-1"
      = agentCurrentStreams limSample "agent-1") ∧
    (domainCurrentStreams
        (Limiter.releaseStream limSampleAcq "agent-1" "example.localhost")
        "example.localhost"
      = domainCurrentStreams limSample "example.localhost") ∧
    LimiterNonneg
      (applyLimiterOp limSample (.acquireStream "agent-1" "example.localhost")) := by
  have h := limiter_acquire_release_identity.1 limSample "agent-1"
    "example.localhost" limSampleAcq (by unfold LimiterNonneg; decide) (by rfl)
  have h2 := limiter_acquire_release_identity.2 limSample
    (.acquireStream "agent-1" "example.localhost") (by unfold LimiterNonneg; decide)
  exact ⟨h.1, h.2, h2⟩

/-- C10: `GetDomainLimit` acquires the read lock but releases the write lock
(`RLock` paired with `Unlock`), so no call returns normally; the symmetric
`GetAgentLimit` pairs `RLock` with `RUnlock` and always returns, leaving the
mutex as it found it. -/
theorem limiter_getDomainLimit_lock_mispairing :
    (∀ (l : Limiter) (mu : RWMutex) (d : String), mu.writerHeld = false →
        Limiter.getDomainLimit l mu d = none) ∧
    (∀ (l : Limiter) (mu : RWMutex) (a : String), mu.writerHeld = false →
        Limiter.getAgentLimit l mu a
          = some (GoMap.lookupA l.agentLimits a, mu)) := by
  constructor
  · intro l mu d h
    simp [Limiter.getDomainLimit, RWMutex.rLock, RWMutex.unlock, h]
  · intro l mu a h
    obtain ⟨r, w⟩ := mu
    simp only at h
    subst h
    simp [Limiter.getAgentLimit, RWMutex.rLock, RWMutex.rUnlock]

/-- Concrete instantiation: on an unlocked mutex, `GetDomainLimit` never
returns and `GetAgentLimit` returns the lookup result. -/
theorem limiter_getDomainLimit_lock_mispairing_witness :
    Limiter.getDomainLimit (Limiter.newLimiter 0 0)
        { readers := 0, writerHeld := false } "example.localhost" = none ∧
    Limiter.getAgentLimit (Limiter.newLimiter 0 0)
        { readers := 0, writerHeld := false } "agent-1"
      = some (none, { readers := 0, writerHeld := false }) := by
  constructor
  · exact limiter_getDomainLimit_lock_mispairing.1 (Limiter.newLimiter 0 0)
      { readers := 0, writerHeld := false } "example.localhost" rfl
  · have := limiter_getDomainLimit_lock_mispairing.2 (Limiter.newLimiter 0 0)
      { readers := 0, writerHeld := false } "agent-1" rfl
    simpa [Limiter.newLimiter, GoMap.lookupA] using this

/-! ## Registry (internal/registry/tunnel.go) -/

/-- Embeds the `Tunnel` struct. -/
structure Tunnel where
  domain : String
  subdomain : String
  fullDomain : String
  connectionID : String
  agentID : String
  createdAt : Nat
  lastAccess : Nat
  metadata : List (String × String)
deriving DecidableEq, Repr

/-- Embeds the `Registry` struct: the forward map `fullDomain -> Tunnel` and
the reverse index `connectionID -> (fullDomain -> Tunnel)`. -/
structure Registry where
  tunnels : GoMap String Tunnel
  connTunnels : GoMap String (GoMap String Tunnel)
  baseDomain : String
deriving DecidableEq, Repr

/-- Error kinds of the registry package. -/
inductive RegistryErr
  | domainMismatch
  | domainAlreadyRegistered
  | tunnelNotFound
deriving DecidableEq, Repr

namespace Registry

open GoMap

/-- Embeds `NewRegistry`. -/
def newRegistry (baseDomain : String) : Registry :=
  { tunnels := [], connTunnels := [], baseDomain := baseDomain }

/-- Embeds `buildFullDomain`. -/
def buildFullDomain (r : Registry) (subdomain : String) : String :=
  if subdomain = "" then r.baseDomain else subdomain ++ "." ++ r.baseDomain

/-- Embeds `RegisterTunnel`. The source stores one `*Tunnel` pointer in both
indices; under value semantics the refresh of an existing record is written
into both maps, mirroring the shared pointer. -/
def registerTunnel (r : Registry) (domain subdomain connectionID agentID : String)
    (metadata : List (String × String)) (now : Nat) :
    Except RegistryErr (Tunnel × Registry) :=
  let fullDomain := r.buildFullDomain subdomain
  if domain ≠ "" ∧ domain ≠ fullDomain then
    .error .domainMismatch
  else
    match lookupA r.tunnels fullDomain with
    | some existing =>
        if existing.connectionID ≠ connectionID then
          .error .domainAlreadyRegistered
        else
          let updated := { existing with metadata := metadata, lastAccess := now }
          let fw := insertA r.tunnels fullDomain updated
          let ct :=
            match lookupA r.connTunnels existing.connectionID with
            | some m =>
                insertA r.connTunnels existing.connectionID (insertA m fullDomain updated)
            | none => r.connTunnels
          .ok (updated, { r with tunnels := fw, connTunnels := ct })
    | none =>
        let tunnel : Tunnel :=
          { domain := domain, subdomain := subdomain, fullDomain := fullDomain
            connectionID := connectionID, agentID := agentID
            createdAt := now, lastAccess := now, metadata := metadata }
        let fw := insertA r.tunnels fullDomain tunnel
        let inner := (lookupA r.connTunnels connectionID).getD []
        let ct := insertA r.connTunnels connectionID (insertA inner fullDomain tunnel)
        .ok (tunnel, { r with tunnels := fw, connTunnels := ct })

/-- Embeds `GetTunnel` together with the asynchronous `lastAccess` refresh it
spawns (which re-locks the forward index; the record is shared with the
reverse index through the stored pointer). -/
def getTunnel (r : Registry) (domain : String) (now : Nat) :
    Option Tunnel × Registry :=
  match lookupA r.tunnels domain with
  | none => (none, r)
  | some t =>
      let updated := { t with lastAccess := now }
      let fw := insertA r.tunnels domain updated
      let ct :=
        match lookupA r.connTunnels t.connectionID with
        | some m => insertA r.connTunnels t.connectionID (insertA m domain updated)
        | none => r.connTunnels
      (some t, { r with tunnels := fw, connTunnels := ct })

/-- Embeds `UnregisterTunnel`: removes the domain from the forward map and
from the reverse-index entry of the tunnel, dropping that entry when it
becomes empty. -/
def unregisterTunnel (r : Registry) (domain : String) : Except RegistryErr Registry :=
  match lookupA r.tunnels domain with
  | none => .error .tunnelNotFound
  | some tunnel =>
      let fw := eraseA r.tunnels domain
      let ct :=
        match lookupA r.connTunnels tunnel.connectionID with
        | some m =>
            let m' := eraseA m domain
            if m' = [] then eraseA r.connTunnels tunnel.connectionID
            else insertA r.connTunnels tunnel.connectionID m'
        | none => r.connTunnels
      .ok { r with tunnels := fw, connTunnels := ct }

/-- Embeds `UnregisterConnectionTunnels`: snapshots the domains of the
reverse-index entry, then unregisters each one, ignoring the per-domain
errors as the source does. -/
def unregisterConnectionTunnels (r : Registry) (connectionID : String) : Registry :=
  match lookupA r.connTunnels connectionID with
  | none => r
  | some m =>
      (keysA m).foldl
        (fun acc domain =>
          match acc.unregisterTunnel domain with
          | .ok r' => r'
          | .error _ => acc)
        r

end Registry

/-- The registry operations of the consistency claim. -/
inductive RegOp
  | register (domain subdomain connectionID agentID : String)
      (metadata : List (String × String)) (now : Nat)
  | unregister (domain : String)
  | unregisterConn (connectionID : String)

/-- Applies one registry operation; a failed operation leaves the state
unchanged. -/
def applyRegOp (r : Registry) : RegOp → Registry
  | .register d sd cid aid md now =>
      match r.registerTunnel d sd cid aid md now with
      | .ok res => res.2
      | .error _ => r
  | .unregister d =>
      match r.unregisterTunnel d with
      | .ok r' => r'
      | .error _ => r
  | .unregisterConn cid => r.unregisterConnectionTunnels cid

/-- Coherence of a forward map and a reverse index: a forward entry is
mirrored in the reverse-index entry of its connection, and every reverse
entry points back at the same forward record. -/
def Coh (fw : GoMap String Tunnel) (ct : GoMap String (GoMap String Tunnel)) : Prop :=
  (∀ d t, GoMap.lookupA fw d = some t →
      ∃ m, GoMap.lookupA ct t.connectionID = some m ∧
        GoMap.lookupA m d = some t) ∧
  (∀ cid m d t, GoMap.lookupA ct cid = some m →
      GoMap.lookupA m d = some t →
      t.connectionID = cid ∧ GoMap.lookupA fw d = some t)

/-- Coherence of the two indices of a registry. -/
def RegistryCoherent (r : Registry) : Prop :=
  Coh r.tunnels r.connTunnels

theorem coh_insert {fw : GoMap String Tunnel}
    {ct : GoMap String (GoMap String Tunnel)} {fd cid : String}
    {tunnel : Tunnel} (h : Coh fw ct)
    (hnew : lookupA fw fd = none) (hcid : tunnel.connectionID = cid) :
    Coh (insertA fw fd tunnel)
      (insertA ct cid (insertA ((lookupA ct cid).getD []) fd tunnel)) := by
  constructor
  · intro d t' hl
    by_cases hd : d = fd
    · subst hd
      rw [lookupA_insertA_self] at hl
      obtain rfl := Option.some.inj hl
      refine ⟨insertA ((lookupA ct cid).getD []) d tunnel, ?_, ?_⟩
      · rw [hcid]
        exact lookupA_insertA_self _ _ _
      · exact lookupA_insertA_self _ _ _
    · rw [lookupA_insertA_ne _ hd] at hl
      obtain ⟨m, hm, hmd⟩ := h.1 d t' hl
      by_cases hc : t'.connectionID = cid
      · rw [hc] at hm
        refine ⟨insertA m fd tunnel, ?_, ?_⟩
        · rw [hc]
          rw [hm]
          simpa [hm] using lookupA_insertA_self ct cid (insertA m fd tunnel)
        · rw [lookupA_insertA_ne _ hd]
          exact hmd
      · refine ⟨m, ?_, hmd⟩
        rw [lookupA_insertA_ne _ hc]
        exact hm
  · intro cid' m' d t' hl hmd
    by_cases hc : cid' = cid
    · subst hc
      rw [lookupA_insertA_self] at hl
      obtain rfl := Option.some.inj hl
      by_cases hd : d = fd
      · subst hd
        rw [lookupA_insertA_self] at hmd
        obtain rfl := Option.some.inj hmd
        exact ⟨hcid, lookupA_insertA_self _ _ _⟩
      · rw [lookupA_insertA_ne _ hd] at hmd
        cases hct : lookupA ct cid' with
        | none =>
          rw [hct] at hmd
          simp [lookupA] at hmd
        | some m0 =>
          rw [hct] at hmd
          simp only [Option.getD_some] at hmd
          obtain ⟨hconn, hfw⟩ := h.2 cid' m0 d t' hct hmd
          refine ⟨hconn, ?_⟩
          rw [lookupA_insertA_ne _ hd]
          exact hfw
    · rw [lookupA_insertA_ne _ hc] at hl
      obtain ⟨hconn, hfw⟩ := h.2 cid' m' d t' hl hmd
      refine ⟨hconn, ?_⟩
      by_cases hd : d = fd
      · subst hd
        rw [hnew] at hfw
        cases hfw
      · rw [lookupA_insertA_ne _ hd]
        exact hfw

theorem coh_refresh {fw : GoMap String Tunnel}
    {ct : GoMap String (GoMap String Tunnel)} {fd : String}
    {m0 : GoMap String Tunnel} {existing updated : Tunnel} (h : Coh fw ct)
    (hex : lookupA fw fd = some existing)
    (hm0 : lookupA ct existing.connectionID = some m0)
    (hcid : updated.connectionID = existing.connectionID) :
    Coh (insertA fw fd updated)
      (insertA ct existing.connectionID (insertA m0 fd updated)) := by
  constructor
  · intro d t' hl
    by_cases hd : d = fd
    · subst hd
      rw [lookupA_insertA_self] at hl
      obtain rfl := Option.some.inj hl
      refine ⟨insertA m0 d updated, ?_, lookupA_insertA_self _ _ _⟩
      rw [hcid]
      exact lookupA_insertA_self _ _ _
    · rw [lookupA_insertA_ne _ hd] at hl
      obtain ⟨m, hm, hmd⟩ := h.1 d t' hl
      by_cases hc : t'.connectionID = existing.connectionID
      · rw [hc] at hm
        have hmeq : m = m0 := Option.some.inj (hm.symm.trans hm0)
        rw [hmeq] at hmd
        refine ⟨insertA m0 fd updated, ?_, ?_⟩
        · rw [hc]
          exact lookupA_insertA_self _ _ _
        · rw [lookupA_insertA_ne _ hd]
          exact hmd
      · refine ⟨m, ?_, hmd⟩
        rw [lookupA_insertA_ne _ hc]
        exact hm
  · intro cid' m' d t' hl hmd
    by_cases hc : cid' = existing.connectionID
    · subst hc
      rw [lookupA_insertA_self] at hl
      obtain rfl := Option.some.inj hl
      by_cases hd : d = fd
      · subst hd
        rw [lookupA_insertA_self] at hmd
        obtain rfl := Option.some.inj hmd
        exact ⟨hcid, lookupA_insertA_self _ _ _⟩
      · rw [lookupA_insertA_ne _ hd] at hmd
        obtain ⟨hconn, hfw⟩ := h.2 _ m0 d t' hm0 hmd
        refine ⟨hconn, ?_⟩
        rw [lookupA_insertA_ne _ hd]
        exact hfw
    · rw [lookupA_insertA_ne _ hc] at hl
      obtain ⟨hconn, hfw⟩ := h.2 cid' m' d t' hl hmd
      refine ⟨hconn, ?_⟩
      by_cases hd : d = fd
      · subst hd
        rw [hex] at hfw
        obtain rfl := Option.some.inj hfw
        exact absurd hconn.symm hc
      · rw [lookupA_insertA_ne _ hd]
        exact hfw

theorem coh_erase {fw : GoMap String Tunnel}
    {ct : GoMap String (GoMap String Tunnel)} {d : String}
    {tunnel : Tunnel} {m0 : GoMap String Tunnel} (h : Coh fw ct)
    (hfw : lookupA fw d = some tunnel)
    (hm0 : lookupA ct tunnel.connectionID = some m0) :
    Coh (eraseA fw d)
      (if eraseA m0 d = ([] : GoMap String Tunnel) then
        eraseA ct tunnel.connectionID
      else insertA ct tunnel.connectionID (eraseA m0 d)) := by
  constructor
  · intro d' t' hl
    by_cases hd : d' = d
    · subst hd
      rw [lookupA_eraseA_self] at hl
      cases hl
    · rw [lookupA_eraseA_ne _ hd] at hl
      obtain ⟨m, hm, hmd⟩ := h.1 d' t' hl
      by_cases hc : t'.connectionID = tunnel.connectionID
      · rw [hc] at hm
        have hmeq : m = m0 := Option.some.inj (hm.symm.trans hm0)
        rw [hmeq] at hmd
        have hne : eraseA m0 d ≠ [] := by
          intro hemp
          have heq := lookupA_eraseA_ne m0 hd
          rw [hemp, hmd] at heq
          simp [lookupA] at heq
        rw [if_neg hne]
        refine ⟨eraseA m0 d, ?_, ?_⟩
        · rw [hc]
          exact lookupA_insertA_self _ _ _
        · rw [lookupA_eraseA_ne _ hd]
          exact hmd
      · refine ⟨m, ?_, hmd⟩
        by_cases hemp : eraseA m0 d = ([] : GoMap String Tunnel)
        · rw [if_pos hemp, lookupA_eraseA_ne _ hc]
          exact hm
        · rw [if_neg hemp, lookupA_insertA_ne _ hc]
          exact hm
  · intro cid' m' d' t' hl hmd
    by_cases hc : cid' = tunnel.connectionID
    · subst hc
      by_cases hemp : eraseA m0 d = ([] : GoMap String Tunnel)
      · rw [if_pos hemp, lookupA_eraseA_self] at hl
        cases hl
      · rw [if_neg hemp, lookupA_insertA_self] at hl
        obtain rfl := Option.some.inj hl
        by_cases hd : d' = d
        · subst hd
          rw [lookupA_eraseA_self] at hmd
          cases hmd
        · rw [lookupA_eraseA_ne _ hd] at hmd
          obtain ⟨hconn, hfw'⟩ := h.2 _ m0 d' t' hm0 hmd
          refine ⟨hconn, ?_⟩
          rw [lookupA_eraseA_ne _ hd]
          exact hfw'
    · have hl' : lookupA ct cid' = some m' := by
        by_cases hemp : eraseA m0 d = ([] : GoMap String Tunnel)
        · rw [if_pos hemp, lookupA_eraseA_ne _ hc] at hl
          exact hl
        · rw [if_neg hemp, lookupA_insertA_ne _ hc] at hl
          exact hl
      obtain ⟨hconn, hfw'⟩ := h.2 cid' m' d' t' hl' hmd
      refine ⟨hconn, ?_⟩
      by_cases hd : d' = d
      · subst hd
        rw [hfw] at hfw'
        obtain rfl := Option.some.inj hfw'
        exact absurd hconn.symm hc
      · rw [lookupA_eraseA_ne _ hd]
        exact hfw'

theorem coherent_registerTunnel {r : Registry} {dom sd cid aid : String}
    {md : List (String × String)} {now : Nat} {t : Tunnel} {r' : Registry}
    (h : RegistryCoherent r)
    (hreg : r.registerTunnel dom sd cid aid md now = .ok (t, r')) :
    RegistryCoherent r' := by
  unfold Registry.registerTunnel at hreg
  by_cases hmis : dom ≠ "" ∧ dom ≠ r.buildFullDomain sd
  · rw [if_pos hmis] at hreg
    cases hreg
  · rw [if_neg hmis] at hreg
    split at hreg
    · rename_i existing heq
      split at hreg
      · cases hreg
      · rename_i hcid
        obtain ⟨m0, hm0, -⟩ := h.1 _ existing heq
        simp only [hm0, Except.ok.injEq, Prod.mk.injEq] at hreg
        obtain ⟨-, hr⟩ := hreg
        subst hr
        exact coh_refresh h heq hm0 rfl
    · rename_i heq
      simp only [Except.ok.injEq, Prod.mk.injEq] at hreg
      obtain ⟨-, hr⟩ := hreg
      subst hr
      exact coh_insert h heq rfl

theorem coherent_unregisterTunnel {r r' : Registry} {d : String}
    (h : RegistryCoherent r) (hun : r.unregisterTunnel d = .ok r') :
    RegistryCoherent r' := by
  unfold Registry.unregisterTunnel at hun
  split at hun
  · cases hun
  · rename_i tunnel heq
    obtain ⟨m0, hm0, -⟩ := h.1 d tunnel heq
    simp only [hm0, Except.ok.injEq] at hun
    subst hun
    exact coh_erase h heq hm0

theorem coherent_unregFold (ds : List String) (r : Registry)
    (h : RegistryCoherent r) :
    RegistryCoherent (ds.foldl
      (fun acc domain =>
        match acc.unregisterTunnel domain with
        | .ok r' => r'
        | .error _ => acc) r) := by
  induction ds generalizing r with
  | nil => exact h
  | cons d rest ih =>
    simp only [List.foldl_cons]
    apply ih
    cases hun : r.unregisterTunnel d with
    | ok r' => exact coherent_unregisterTunnel h hun
    | error e => exact h

theorem coherent_applyRegOp (r : Registry) (op : RegOp)
    (h : RegistryCoherent r) : RegistryCoherent (applyRegOp r op) := by
  cases op with
  | register dom sd cid aid md now =>
    simp only [applyRegOp]
    cases hreg : r.registerTunnel dom sd cid aid md now with
    | ok res =>
      obtain ⟨t, r'⟩ := res
      exact coherent_registerTunnel h hreg
    | error e => exact h
  | unregister d =>
    simp only [applyRegOp]
    cases hun : r.unregisterTunnel d with
    | ok r' => exact coherent_unregisterTunnel h hun
    | error e => exact h
  | unregisterConn cid =>
    simp only [applyRegOp]
    unfold Registry.unregisterConnectionTunnels
    cases lookupA r.connTunnels cid with
    | none => exact h
    | some m => exact coherent_unregFold (keysA m) r h

/-- Sample tunnel record produced by registering subdomain `example` for
connection `conn-1` on base domain `localhost`. -/
def tunnelSample : Tunnel :=
  { domain := "", subdomain := "example", fullDomain := "example.localhost"
    connectionID := "conn-1", agentID := "agent-1"
    createdAt := 0, lastAccess := 0, metadata := [] }

/-- C8: after any sequence of register, unregister and unregister-connection
operations starting from the empty registry, a domain is present in the
forward map exactly when it is present in the reverse-index entry keyed by
that tunnel record's connection id (and every reverse entry points back at
the forward record), and each full domain maps to at most one tunnel. -/
theorem registry_index_consistency (base : String) (ops : List RegOp) :
    RegistryCoherent (ops.foldl applyRegOp (Registry.newRegistry base)) ∧
    (∀ d t t',
      GoMap.lookupA (ops.foldl applyRegOp (Registry.newRegistry base)).tunnels d
          = some t →
      GoMap.lookupA (ops.foldl applyRegOp (Registry.newRegistry base)).tunnels d
          = some t' →
      t = t') := by
  constructor
  · have hstep : ∀ (l : List RegOp) (r : Registry), RegistryCoherent r →
        RegistryCoherent (l.foldl applyRegOp r) := by
      intro l
      induction l with
      | nil => intro r h; exact h
      | cons op rest ih =>
        intro r h
        exact ih _ (coherent_applyRegOp r op h)
    apply hstep
    constructor
    · intro d t hl
      simp [Registry.newRegistry, GoMap.lookupA] at hl
    · intro cid m d t hl hmd
      simp [Registry.newRegistry, GoMap.lookupA] at hl
  · intro d t t' h1 h2
    rw [h1] at h2
    exact Option.some.inj h2

/-- Concrete instantiation of registry coherence: after one registration the
reverse index holds the registered domain under `conn-1`. -/
theorem registry_index_consistency_witness :
    ∃ m, GoMap.lookupA
        ([RegOp.register "" "example" "conn-1" "agent-1" [] 0].foldl applyRegOp
          (Registry.newRegistry "localhost")).connTunnels
        tunnelSample.connectionID = some m ∧
      GoMap.lookupA m "example.localhost" = some tunnelSample :=
  (registry_index_consistency "localhost"
      [RegOp.register "" "example" "conn-1" "agent-1" [] 0]).1.1
    "example.localhost" tunnelSample (by rfl)

/-! ## Frames (tunnel-protocol v1, consumed as an external dependency) -/

/-- Modelled from the spec: the frame types the core consumes from the
injected codec (`AUTH`, `HEARTBEAT`, `CLOSE`, `OPEN_STREAM`, `DATA`). -/
inductive FrameType
  | auth
  | heartbeat
  | close
  | openStream
  | data
deriving DecidableEq, Repr

/-- Modelled from the spec: the frame envelope `(version, type, flags,
stream_id, payload)`; the `END_STREAM` and `ACK` flags are carried as
booleans and the payload as a byte list. -/
structure Frame where
  version : Nat
  ftype : FrameType
  endStream : Bool
  ack : Bool
  streamID : Nat
  payload : List Nat
deriving DecidableEq, Repr

/-- Modelled from the spec: stream id 0 denotes a control frame. -/
def Frame.isControlFrame (f : Frame) : Bool :=
  f.streamID == 0

/-- Modelled from the spec: the `END_STREAM` flag test. -/
def Frame.isEndStream (f : Frame) : Bool :=
  f.endStream

/-! ## Connection, stream and manager (internal/connection) -/

/-- Embeds `StreamState`. -/
inductive StreamState
  | streamStateInit
  | streamStateOpen
  | streamStateData
  | streamStateClosed
  | streamStateError
deriving DecidableEq, Repr

/-- Embeds the `Stream` struct; `dataIn` holds the buffered contents of the
bounded (capacity 10) channel, `closeChClosed` whether `closeCh` is closed. -/
structure Stream where
  id : Nat
  state : StreamState
  createdAt : ℚ
  metadata : List (String × String)
  dataIn : List (List Nat)
  dataOut : List (List Nat)
  closeChClosed : Bool
deriving DecidableEq, Repr

/-- Embeds the `Connection` struct; `ctxCancelled` stands for the cancel
handle having been invoked and `socketClosed` for `Conn.Close`. -/
structure Connection where
  id : String
  agentID : String
  metadata : List (String × String)
  createdAt : ℚ
  lastHeartbeat : ℚ
  streams : GoMap Nat Stream
  nextStreamID : Nat
  ctxCancelled : Bool
  closed : Bool
  socketClosed : Bool
deriving DecidableEq, Repr

/-- Error kinds of the connection package (connection errors.go), plus the
context-cancellation error the dispatch can surface. -/
inductive ConnErr
  | maxConnections
  | connectionExists
  | connectionNotFound
  | connectionClosed
  | connectionClosedByAgent
  | streamExists
  | streamNotFound
  | streamClosed
  | invalidControlFrame
  | invalidStreamFrame
  | ctxCanceled
deriving DecidableEq, Repr

/-- Models acquiring a mutex when the current task may already hold it: Go
mutexes are not reentrant, so re-acquisition blocks forever (`none`). -/
def mutexAcquire (alreadyHeld : Bool) : Option Unit :=
  if alreadyHeld then none else some ()

namespace Connection

open GoMap

/-- Embeds `createStream`: inserts a fresh stream with empty bounded
channels and an open close channel. -/
def createStream (c : Connection) (streamID : Nat) (now : ℚ) :
    Stream × Connection :=
  let stream : Stream :=
    { id := streamID, state := .streamStateInit, createdAt := now
      metadata := [], dataIn := [], dataOut := [], closeChClosed := false }
  (stream, { c with streams := insertA c.streams streamID stream })

/-- Embeds `closeStream` with an explicit flag saying whether the calling
task already holds `streamsMu` (the function acquires that lock itself).
Closing fires the close channel and removes the stream from the table. -/
def closeStreamLocked (c : Connection) (streamID : Nat)
    (callerHoldsStreamsMu : Bool) : Option Connection :=
  match mutexAcquire callerHoldsStreamsMu with
  | none => none
  | some _ =>
      match lookupA c.streams streamID with
      | none => some c
      | some _ => some { c with streams := eraseA c.streams streamID }

/-- Embeds `closeStream` as called from the dispatch path, where `streamsMu`
is free. -/
def closeStream (c : Connection) (streamID : Nat) : Connection :=
  (c.closeStreamLocked streamID false).getD c

/-- Embeds `GetStream`. -/
def getStream (c : Connection) (streamID : Nat) : Option Stream :=
  lookupA c.streams streamID

/-- Embeds `AllocateStreamID`: returns `nextStreamID` and increments it with
unsigned 32-bit wraparound. -/
def allocateStreamID (c : Connection) : Nat × Connection :=
  (c.nextStreamID, { c with nextStreamID := (c.nextStreamID + 1) % 2 ^ 32 })

/-- Embeds `SendFrame`: fails on a closed connection, otherwise encodes to
the socket, leaving the connection state unchanged. -/
def sendFrame (c : Connection) (f : Frame) : Except ConnErr Unit :=
  if c.closed then .error .connectionClosed else .ok ()

/-- Embeds `updateHeartbeat`. -/
def updateHeartbeat (c : Connection) (now : ℚ) : Connection :=
  { c with lastHeartbeat := now }

/-- The loop body of `Connection.Close`: iterates `closeStream` over the
stream-id snapshot while the caller keeps holding `streamsMu`. -/
def closeAllStreams : Connection → List Nat → Option Connection
  | c, [] => some c
  | c, sid :: rest =>
      match c.closeStreamLocked sid true with
      | none => none
      | some c' => closeAllStreams c' rest

/-- Embeds `Connection.Close`: early return when already closed; otherwise
set `closed`, cancel the context, take `streamsMu` and call `closeStream`
for every stream (which re-acquires the same non-reentrant lock), then close
the socket. `none` models the call never returning. -/
def close (c : Connection) : Option Connection :=
  if c.closed then some c
  else
    let c₁ := { c with closed := true, ctxCancelled := true }
    match closeAllStreams c₁ (keysA c₁.streams) with
    | none => none
    | some c₂ => some { c₂ with socketClosed := true }

end Connection

/-- Embeds the `Manager` struct; for each callback only its presence is
recorded, and invocations are reported in a `CallbackLog`. -/
structure Manager where
  connections : GoMap String Connection
  maxConnections : Nat
  heartbeatTimeout : ℚ
  hasOnConnectionClosed : Bool
  hasOnStreamCreated : Bool
  hasOnStreamClosed : Bool
deriving DecidableEq, Repr

/-- The callback invocations produced by a manager step, in order. -/
structure CallbackLog where
  connClosed : List String
  streamCreated : List (String × Nat)
  streamClosed : List (String × Nat)
deriving DecidableEq, Repr

namespace Manager

open GoMap

/-- Embeds `RegisterConnection` (without the spawned handler task, which is
modelled by `runLoop`). -/
def registerConnection (m : Manager) (connID agentID : String)
    (metadata : List (String × String)) (now : ℚ) :
    Except ConnErr (Connection × Manager) :=
  if m.maxConnections ≤ m.connections.length then .error .maxConnections
  else if (lookupA m.connections connID).isSome then .error .connectionExists
  else
    let c : Connection :=
      { id := connID, agentID := agentID, metadata := metadata
        createdAt := now, lastHeartbeat := now
        streams := [], nextStreamID := 1
        ctxCancelled := false, closed := false, socketClosed := false }
    .ok (c, { m with connections := insertA m.connections connID c })

/-- Embeds `handleControlFrame`: `AUTH` and `HEARTBEAT` update the
heartbeat, `CLOSE` is the agent-initiated termination, anything else is an
invalid control frame. -/
def handleControlFrame (m : Manager) (c : Connection) (f : Frame) (now : ℚ) :
    Except ConnErr Connection :=
  match f.ftype with
  | .auth => .ok (c.updateHeartbeat now)
  | .heartbeat => .ok (c.updateHeartbeat now)
  | .close => .error .connectionClosedByAgent
  | _ => .error .invalidControlFrame

/-- Embeds `handleStreamFrame`. The enqueue select takes a fired close
signal first, then connection cancellation, then a put when the bounded
queue has room; a full queue blocks the dispatcher (`none`). -/
def handleStreamFrame (m : Manager) (c : Connection) (f : Frame) (now : ℚ) :
    Option (Except ConnErr (Connection × CallbackLog)) :=
  let found := lookupA c.streams f.streamID
  match f.ftype with
  | .openStream =>
      match found with
      | some _ => some (.error .streamExists)
      | none =>
          let r := c.createStream f.streamID now
          some (.ok (r.2,
            { connClosed := []
              streamCreated := if m.hasOnStreamCreated then [(c.id, f.streamID)] else []
              streamClosed := [] }))
  | .data =>
      match found with
      | none => some (.error .streamNotFound)
      | some stream =>
          if stream.closeChClosed then some (.error .streamClosed)
          else if c.ctxCancelled then some (.error .ctxCanceled)
          else if stream.dataIn.length < 10 then
            let stream₁ := { stream with dataIn := stream.dataIn ++ [f.payload] }
            let c₁ := { c with streams := insertA c.streams f.streamID stream₁ }
            if f.isEndStream then
              let stream₂ := { stream₁ with state := .streamStateClosed }
              let c₂ := { c₁ with streams := insertA c₁.streams f.streamID stream₂ }
              some (.ok (c₂.closeStream f.streamID,
                { connClosed := [], streamCreated := []
                  streamClosed := if m.hasOnStreamClosed then [(c.id, f.streamID)] else [] }))
            else
              some (.ok (c₁, { connClosed := [], streamCreated := [], streamClosed := [] }))
          else none
  | .close =>
      match found with
      | none => some (.ok (c, { connClosed := [], streamCreated := [], streamClosed := [] }))
      | some stream =>
          let stream₁ := { stream with state := .streamStateClosed }
          let c₁ := { c with streams := insertA c.streams f.streamID stream₁ }
          some (.ok (c₁.closeStream f.streamID,
            { connClosed := [], streamCreated := []
              streamClosed := if m.hasOnStreamClosed then [(c.id, f.streamID)] else [] }))
  | _ => some (.error .invalidStreamFrame)

/-- Embeds `handleFrame`: control frames for stream id 0, stream frames
otherwise. -/
def handleFrame (m : Manager) (c : Connection) (f : Frame) (now : ℚ) :
    Option (Except ConnErr (Connection × CallbackLog)) :=
  if f.isControlFrame then
    match m.handleControlFrame c f now with
    | .ok c' => some (.ok (c', { connClosed := [], streamCreated := [], streamClosed := [] }))
    | .error e => some (.error e)
  else
    m.handleStreamFrame c f now

end Manager

/-- One iteration of the select in `handleConnection`: context cancellation,
a heartbeat tick, arrival of a decoded frame, or a reader error. Events that
read the clock carry its value. -/
inductive LoopEvent
  | ctxDone
  | tick (now : ℚ)
  | frame (f : Frame) (now : ℚ)
  | readerErr

/-- Result of running the frame loop on an event sequence: still running,
exited (with the state after the deferred `Connection.Close`, `none` when
that close never returns), or blocked on a full stream queue. -/
inductive LoopOutcome
  | running (c : Connection)
  | exited (final : Option Connection)
  | blocked
deriving DecidableEq, Repr

namespace Manager

/-- Embeds the main loop of `handleConnection` over an explicit event
sequence. Every exit path runs only the deferred `Connection.Close`; the
log records every callback invocation the loop makes. -/
def runLoop (m : Manager) (c : Connection) :
    List LoopEvent → LoopOutcome × CallbackLog
  | [] => (.running c, { connClosed := [], streamCreated := [], streamClosed := [] })
  | e :: rest =>
      match e with
      | .ctxDone =>
          (.exited c.close, { connClosed := [], streamCreated := [], streamClosed := [] })
      | .tick now =>
          if m.heartbeatTimeout < now - c.lastHeartbeat then
            (.exited c.close, { connClosed := [], streamCreated := [], streamClosed := [] })
          else
            m.runLoop c rest
      | .readerErr =>
          (.exited c.close, { connClosed := [], streamCreated := [], streamClosed := [] })
      | .frame f now =>
          match m.handleFrame c f now with
          | none =>
              (.blocked, { connClosed := [], streamCreated := [], streamClosed := [] })
          | some (.error _) =>
              (.exited c.close, { connClosed := [], streamCreated := [], streamClosed := [] })
          | some (.ok r) =>
              let rest' := m.runLoop r.1 rest
              (rest'.1,
                { connClosed := r.2.connClosed ++ rest'.2.connClosed
                  streamCreated := r.2.streamCreated ++ rest'.2.streamCreated
                  streamClosed := r.2.streamClosed ++ rest'.2.streamClosed })

/-- Embeds `CloseConnection`: removes the connection from the map, closes
it, then invokes the installed `on_connection_closed` callback; `none`
models a `Connection.Close` that never returns. -/
def closeConnection (m : Manager) (connID : String) :
    Option (Manager × CallbackLog × Except ConnErr Unit) :=
  match GoMap.lookupA m.connections connID with
  | none =>
      some (m, { connClosed := [], streamCreated := [], streamClosed := [] },
        .error .connectionNotFound)
  | some conn =>
      let m' := { m with connections := GoMap.eraseA m.connections connID }
      match conn.close with
      | none => none
      | some _ =>
          some (m',
            { connClosed := if m.hasOnConnectionClosed then [connID] else []
              streamCreated := [], streamClosed := [] },
            .ok ())

end Manager

/-- Iterated stream-id allocation. -/
def allocStreamIDs (c : Connection) : Nat → Connection
  | 0 => c
  | n + 1 => allocStreamIDs (c.allocateStreamID).2 n

/-! ## Sample connection and manager states -/

/-- A manager with room for connections and the close callback installed. -/
def mgrSample : Manager :=
  { connections := [], maxConnections := 100, heartbeatTimeout := 30
    hasOnConnectionClosed := true, hasOnStreamCreated := false
    hasOnStreamClosed := false }

/-- The connection produced by registering `conn-1` on a fresh manager. -/
def connSample : Connection :=
  { id := "conn-1", agentID := "agent-1", metadata := []
    createdAt := 0, lastHeartbeat := 0
    streams := [], nextStreamID := 1
    ctxCancelled := false, closed := false, socketClosed := false }

/-- The manager after registering `connSample`. -/
def mgrWithConn : Manager :=
  { mgrSample with connections := GoMap.insertA [] "conn-1" connSample }

/-- A DATA frame for stream id 5, which no stream table below contains. -/
def dataFrame5 : Frame :=
  { version := 1, ftype := .data, endStream := false, ack := false
    streamID := 5, payload := [1, 2] }

theorem allocateStreamID_fst (c : Connection) :
    (c.allocateStreamID).1 = c.nextStreamID := rfl

theorem allocStreamIDs_nextStreamID (n : Nat) :
    ∀ (c : Connection), c.nextStreamID < 2 ^ 32 →
      (allocStreamIDs c n).nextStreamID = (c.nextStreamID + n) % 2 ^ 32 := by
  induction n with
  | zero =>
    intro c h
    show c.nextStreamID = (c.nextStreamID + 0) % 2 ^ 32
    rw [Nat.add_zero, Nat.mod_eq_of_lt h]
  | succ k ih =>
    intro c h
    have h' : (c.nextStreamID + 1) % 2 ^ 32 < 2 ^ 32 :=
      Nat.mod_lt _ (by norm_num)
    show (allocStreamIDs (c.allocateStreamID).2 k).nextStreamID
        = (c.nextStreamID + (k + 1)) % 2 ^ 32
    rw [ih _ h']
    show ((c.nextStreamID + 1) % 2 ^ 32 + k) % 2 ^ 32
        = (c.nextStreamID + (k + 1)) % 2 ^ 32
    rw [Nat.mod_add_mod]
    congr 1
    omega

/-- C9: on every connection the manager registers, stream ids are allocated
by unsigned 32-bit increment starting from 1; the allocation following
2^32 - 1 previous allocations returns 0, which is exactly the id that
denotes the control stream, so a router-allocated id can collide with it. -/
theorem allocateStreamID_wraps_to_control_id
    {m : Manager} {connID agentID : String} {md : List (String × String)}
    {now : ℚ} {c : Connection} {m' : Manager}
    (hreg : m.registerConnection connID agentID md now = .ok (c, m')) :
    c.nextStreamID = 1 ∧
    ((allocStreamIDs c (2 ^ 32 - 1)).allocateStreamID).1 = 0 ∧
    (∀ f : Frame,
      f.streamID = ((allocStreamIDs c (2 ^ 32 - 1)).allocateStreamID).1 →
      f.isControlFrame = true) := by
  have hc : c.nextStreamID = 1 := by
    unfold Manager.registerConnection at hreg
    split at hreg
    · cases hreg
    · split at hreg
      · cases hreg
      · simp only [Except.ok.injEq, Prod.mk.injEq] at hreg
        obtain ⟨hc', -⟩ := hreg
        rw [← hc']
  have h0 : ((allocStreamIDs c (2 ^ 32 - 1)).allocateStreamID).1 = 0 := by
    have hlt : c.nextStreamID < 2 ^ 32 := by rw [hc]; norm_num
    rw [allocateStreamID_fst, allocStreamIDs_nextStreamID (2 ^ 32 - 1) c hlt, hc]
    norm_num
  refine ⟨hc, h0, ?_⟩
  intro f hf
  rw [h0] at hf
  simp [Frame.isControlFrame, hf]

/-- Concrete instantiation of the allocation-wraparound theorem on a fresh
registered connection. -/
theorem allocateStreamID_wraps_to_control_id_witness :
    connSample.nextStreamID = 1 ∧
    ((allocStreamIDs connSample (2 ^ 32 - 1)).allocateStreamID).1 = 0 :=
  have hreg : mgrSample.registerConnection "conn-1" "agent-1" [] 0
      = .ok (connSample, mgrWithConn) := rfl
  have h := allocateStreamID_wraps_to_control_id hreg
  ⟨h.1, h.2.1⟩

/-- A live stream on id 7. -/
def streamSample7 : Stream :=
  { id := 7, state := .streamStateInit, createdAt := 0, metadata := []
    dataIn := [], dataOut := [], closeChClosed := false }

/-- A connection holding one live stream. -/
def connWithStream7 : Connection :=
  { connSample with streams := [(7, streamSample7)] }

/-- C2 (code bug): on every connection that is not yet closed and holds at
least one stream, `Connection.Close` never returns: it takes `streamsMu` and
then calls `closeStream`, which blocks acquiring the same non-reentrant
lock, so the claimed postconditions (close signals fired, stream table
empty) are never reached. -/
theorem connection_close_deadlocks (c : Connection)
    (hclosed : c.closed = false) (hstreams : c.streams ≠ []) :
    Connection.close c = none := by
  unfold Connection.close
  rw [hclosed]
  simp only [Bool.false_eq_true, if_false]
  cases hst : c.streams with
  | nil => exact absurd hst hstreams
  | cons p rest =>
    simp [hst, GoMap.keysA, Connection.closeAllStreams,
      Connection.closeStreamLocked, mutexAcquire]

/-- Concrete instantiation: closing a connection with one live stream
deadlocks. -/
theorem connection_close_deadlocks_witness :
    connWithStream7.closed = false ∧ connWithStream7.streams ≠ [] ∧
    Connection.close connWithStream7 = none :=
  ⟨rfl, by decide,
    connection_close_deadlocks connWithStream7 rfl (by decide)⟩

/-- The state of `connSample` after its deferred close has run. -/
def connSampleClosed : Connection :=
  { connSample with closed := true, ctxCancelled := true, socketClosed := true }

/-- C3 counterexample: a DATA frame naming an unknown stream makes the
dispatch return a stream-not-found error, on which the frame loop exits and
the deferred close leaves the connection closed - the frame loop does not
continue and the connection does not stay open. -/
theorem data_frame_unknown_stream_counterexample :
    mgrSample.handleFrame connSample dataFrame5 0
        = some (.error ConnErr.streamNotFound) ∧
    (mgrSample.runLoop connSample [.frame dataFrame5 0]).1
        = LoopOutcome.exited (some connSampleClosed) ∧
    connSampleClosed.closed = true := by
  refine ⟨rfl, rfl, rfl⟩

/-- C3 (amended): a DATA frame whose stream id is non-zero and names no
live open stream (missing, or present with a fired close signal) makes the
dispatch return a stream-level error, and the frame loop thereupon exits and
runs the deferred connection close: such frames are connection-fatal. -/
theorem data_frame_unknown_stream_connection_fatal
    (m : Manager) (c : Connection) (f : Frame) (now : ℚ)
    (hf : f.ftype = .data) (hsid : f.streamID ≠ 0)
    (hmiss : ∀ s, GoMap.lookupA c.streams f.streamID = some s →
      s.closeChClosed = true) :
    (∃ e, m.handleFrame c f now = some (.error e) ∧
      (e = ConnErr.streamNotFound ∨ e = ConnErr.streamClosed)) ∧
    (m.runLoop c [.frame f now]).1 = .exited c.close := by
  have hctl : f.isControlFrame = false := by
    simp [Frame.isControlFrame, hsid]
  have hmain : ∃ e, m.handleFrame c f now = some (.error e) ∧
      (e = ConnErr.streamNotFound ∨ e = ConnErr.streamClosed) := by
    cases hlook : GoMap.lookupA c.streams f.streamID with
    | none =>
      refine ⟨ConnErr.streamNotFound, ?_, Or.inl rfl⟩
      simp [Manager.handleFrame, Manager.handleStreamFrame, hctl, hf, hlook]
    | some s =>
      have hcl := hmiss s hlook
      refine ⟨ConnErr.streamClosed, ?_, Or.inr rfl⟩
      simp [Manager.handleFrame, Manager.handleStreamFrame, hctl, hf, hlook, hcl]
  obtain ⟨e, he, hor⟩ := hmain
  refine ⟨⟨e, he, hor⟩, ?_⟩
  simp only [Manager.runLoop, he]

/-- Concrete instantiation: a DATA frame for stream id 5 on a connection
with an empty stream table errors and exits the loop. -/
theorem data_frame_unknown_stream_connection_fatal_witness :
    (∃ e, mgrSample.handleFrame connSample dataFrame5 0 = some (.error e) ∧
      (e = ConnErr.streamNotFound ∨ e = ConnErr.streamClosed)) ∧
    (mgrSample.runLoop connSample [.frame dataFrame5 0]).1
        = .exited connSample.close :=
  data_frame_unknown_stream_connection_fatal mgrSample connSample dataFrame5 0
    rfl (by decide) (by intro s h; simp [connSample, GoMap.lookupA] at h)

theorem handleFrame_connClosed_empty (m : Manager) (c : Connection)
    (f : Frame) (now : ℚ) {r : Connection × CallbackLog}
    (h : m.handleFrame c f now = some (.ok r)) : r.2.connClosed = [] := by
  unfold Manager.handleFrame at h
  split at h
  · cases hctl : m.handleControlFrame c f now with
    | ok c' =>
      rw [hctl] at h
      simp only [Option.some.injEq, Except.ok.injEq] at h
      rw [← h]
    | error e =>
      rw [hctl] at h
      simp at h
  · unfold Manager.handleStreamFrame at h
    cases hlk : GoMap.lookupA c.streams f.streamID with
    | none =>
      simp only [hlk] at h
      repeat' split at h
      all_goals
        first
        | (simp only [Option.some.injEq, Except.ok.injEq] at h; rw [← h])
        | (exact absurd h (by simp))
    | some st =>
      simp only [hlk] at h
      repeat' split at h
      all_goals
        first
        | (simp only [Option.some.injEq, Except.ok.injEq] at h; rw [← h])
        | (exact absurd h (by simp))

/-- C5 (code bug): the frame loop never invokes `on_connection_closed` - its
exit paths (context cancellation, heartbeat timeout, reader error, fatal
protocol error) run only the deferred `Connection.Close` - while the
explicit `CloseConnection` path invokes the installed callback exactly
once. So closures through the loop fire the callback zero times, not once. -/
theorem connection_closed_callback_zero_from_loop :
    (∀ (m : Manager) (c : Connection) (es : List LoopEvent),
        ((m.runLoop c es).2).connClosed = []) ∧
    (∀ (m : Manager) (connID : String) (conn : Connection)
        (res : Manager × CallbackLog × Except ConnErr Unit),
        m.hasOnConnectionClosed = true →
        GoMap.lookupA m.connections connID = some conn →
        m.closeConnection connID = some res →
        res.2.1.connClosed = [connID]) := by
  constructor
  · intro m c es
    induction es generalizing c with
    | nil => rfl
    | cons e rest ih =>
      cases e with
      | ctxDone => rfl
      | readerErr => rfl
      | tick now =>
        simp only [Manager.runLoop]
        split
        · rfl
        · exact ih _
      | frame f now =>
        simp only [Manager.runLoop]
        cases hf : m.handleFrame c f now with
        | none => rfl
        | some r =>
          cases r with
          | error e => rfl
          | ok r' =>
            simp only
            rw [handleFrame_connClosed_empty m c f now hf, ih r'.1]
            rfl
  · intro m connID conn res hcb hlook hclose
    unfold Manager.closeConnection at hclose
    simp only [hlook] at hclose
    cases hcl : conn.close with
    | none =>
      rw [hcl] at hclose
      cases hclose
    | some c' =>
      rw [hcl] at hclose
      simp only [Option.some.injEq] at hclose
      rw [← hclose]
      simp [hcb]

/-- Concrete instantiation: a heartbeat-timeout exit fires no callback, an
explicit `CloseConnection` fires it once. -/
theorem connection_closed_callback_zero_from_loop_witness :
    ((mgrSample.runLoop connSample [LoopEvent.tick 100]).2).connClosed = [] ∧
    (mgrWithConn.closeConnection "conn-1").map (fun res => res.2.1.connClosed)
        = some ["conn-1"] := by
  refine ⟨connection_closed_callback_zero_from_loop.1 mgrSample connSample
    [LoopEvent.tick 100], ?_⟩
  have h := connection_closed_callback_zero_from_loop.2 mgrWithConn "conn-1"
    connSample
    (mgrSample,
      { connClosed := ["conn-1"], streamCreated := [], streamClosed := [] },
      Except.ok ())
    rfl (by rfl) (by rfl)
  rw [show mgrWithConn.closeConnection "conn-1"
      = some (mgrSample,
          { connClosed := ["conn-1"], streamCreated := [], streamClosed := [] },
          Except.ok ()) from rfl]
  simpa using h

/-! ## Router (internal/router/router.go) -/

/-- Events observable while waiting for the response: the request deadline
firing, a payload arriving on the stream's inbound channel, or the close
signal firing. -/
inductive WaitEvent
  | deadline
  | dataEv (payload : List Nat)
  | closeSig
deriving DecidableEq, Repr

/-- The error exits of `handleRequest`, each mapped to 500 by `ServeHTTP`. -/
inductive RouterErr
  | sendOpenStreamFailed
  | streamNotFoundAfterCreation
  | sendBodyFailed
  | sendEndStreamFailed
  | waitFailed
deriving DecidableEq, Repr

namespace Router

/-- Embeds the receive loop of `waitForResponse` over an event sequence:
the context deadline aborts with the context error, payloads accumulate and
the close signal ends the loop; an exhausted event list leaves the handler
still waiting (`none`). The source never closes the `dataIn` channel, so the
channel-closed arm of its select cannot fire. -/
def waitForResponse (events : List WaitEvent) (acc : List Nat) :
    Option (Except ConnErr (List Nat)) :=
  match events with
  | [] => none
  | WaitEvent.deadline :: _ => some (.error .ctxCanceled)
  | WaitEvent.dataEv p :: rest => waitForResponse rest (acc ++ p)
  | WaitEvent.closeSig :: _ => some (.ok acc)

/-- The `OPEN_STREAM` frame `handleRequest` sends, with the serialized
request head as payload. -/
def openStreamFrame (streamID : Nat) (requestData : List Nat) : Frame :=
  { version := 1, ftype := .openStream, endStream := false, ack := false
    streamID := streamID, payload := requestData }

/-- The `DATA` frame carrying a non-empty request body. -/
def bodyDataFrame (streamID : Nat) (body : List Nat) : Frame :=
  { version := 1, ftype := .data, endStream := false, ack := false
    streamID := streamID, payload := body }

/-- The empty `DATA` frame with `END_STREAM` that completes the request. -/
def endStreamFrame (streamID : Nat) : Frame :=
  { version := 1, ftype := .data, endStream := true, ack := false
    streamID := streamID, payload := [] }

/-- Embeds `handleRequest`: send `OPEN_STREAM`, fetch the stream, forward a
non-empty body, send the closing `DATA` frame, then wait for the response
bytes. `none` means the handler has not returned within the given events. -/
def handleRequest (conn : Connection) (streamID : Nat)
    (requestData body : List Nat) (events : List WaitEvent) :
    Option (Except RouterErr (List Nat)) :=
  match conn.sendFrame (openStreamFrame streamID requestData) with
  | .error _ => some (.error .sendOpenStreamFailed)
  | .ok _ =>
  match conn.getStream streamID with
  | none => some (.error .streamNotFoundAfterCreation)
  | some _ =>
  match (if body.isEmpty then Except.ok () else conn.sendFrame (bodyDataFrame streamID body)) with
  | .error _ => some (.error .sendBodyFailed)
  | .ok _ =>
  match conn.sendFrame (endStreamFrame streamID) with
  | .error _ => some (.error .sendEndStreamFailed)
  | .ok _ =>
  match waitForResponse events [] with
  | none => none
  | some (.error _) => some (.error .waitFailed)
  | some (.ok resp) => some (.ok resp)

/-- The HTTP status `ServeHTTP` writes for a `handleRequest` outcome: 500
for every handler error, 200 for accumulated bytes, 204 when empty. -/
def respond (res : Option (Except RouterErr (List Nat))) : Option Nat :=
  match res with
  | none => none
  | some (.error _) => some 500
  | some (.ok resp) => some (if resp.isEmpty then 204 else 200)

/-- Embeds `ServeHTTP` end to end, returning the status it writes: 400 on a
missing host, 404 on a missing tunnel, 429 on a quota denial, 503 on a
missing connection, then stream allocation and `handleRequest`. -/
def serveHTTPStatus (reg : Registry) (mgr : Manager) (lim : Option Limiter)
    (host : String) (requestData body : List Nat) (events : List WaitEvent)
    (now : ℚ) (nowReg : Nat) : Option Nat :=
  if host = "" then some 400
  else
    match (reg.getTunnel host nowReg).1 with
    | none => some 404
    | some tunnel =>
    match (match lim with
           | none => (none : Option QuotaErr)
           | some l => (l.checkRequest tunnel.agentID host now).1) with
    | some _ => some 429
    | none =>
    match GoMap.lookupA mgr.connections tunnel.connectionID with
    | none => some 503
    | some conn =>
    match (match lim with
           | none => (none : Option QuotaErr)
           | some l =>
               match l.acquireStream tunnel.agentID host with
               | .ok _ => none
               | .error e => some e) with
    | some _ => some 429
    | none =>
        let alloc := conn.allocateStreamID
        respond (handleRequest alloc.2 alloc.1 requestData body events)

end Router

/-- The registry holding the tunnel `example.localhost -> conn-1`. -/
def regSample : Registry :=
  [RegOp.register "" "example" "conn-1" "agent-1" [] 0].foldl applyRegOp
    (Registry.newRegistry "localhost")

/-- C1 (code bug): after the router allocates a stream id and sends the
`OPEN_STREAM` frame, the connection's stream table does not contain the id:
`AllocateStreamID` only advances the counter and `SendFrame` only encodes to
the socket, so the fetch that the source itself labels "stream not found
after creation" fails and the request is answered with 500. -/
theorem router_allocated_stream_fetch_fails :
    (connSample.allocateStreamID).1 = 1 ∧
    Connection.sendFrame (connSample.allocateStreamID).2
        (Router.openStreamFrame 1 []) = .ok () ∧
    Connection.getStream (connSample.allocateStreamID).2 1 = none ∧
    Router.handleRequest (connSample.allocateStreamID).2 1 [] []
        [WaitEvent.closeSig] = some (.error .streamNotFoundAfterCreation) ∧
    Router.serveHTTPStatus regSample mgrWithConn none "example.localhost"
        [] [] [WaitEvent.closeSig] 0 0 = some 500 := by
  refine ⟨rfl, rfl, rfl, rfl, rfl⟩

/-- The `OPEN_STREAM` frame an agent would send for stream id 1. -/
def openFrame1 : Frame :=
  { version := 1, ftype := .openStream, endStream := false, ack := false
    streamID := 1, payload := [] }

/-- The connection after the agent has opened stream 1 (dispatch of an
`OPEN_STREAM` frame). -/
def connWithStream1 : Connection :=
  match mgrSample.handleFrame connSample openFrame1 0 with
  | some (.ok r) => r.1
  | _ => connSample

/-- The stream record created for stream id 1. -/
def streamSample1 : Stream :=
  { id := 1, state := .streamStateInit, createdAt := 0, metadata := []
    dataIn := [], dataOut := [], closeChClosed := false }

/-- The manager holding `connWithStream1` under id `conn-1`. -/
def mgrWithConn1 : Manager :=
  { mgrSample with connections := GoMap.insertA [] "conn-1" connWithStream1 }

/-- The wait events in which the deadline fires before the close signal. -/
def deadlineFirst : List WaitEvent → Bool
  | [] => false
  | WaitEvent.deadline :: _ => true
  | WaitEvent.dataEv _ :: rest => deadlineFirst rest
  | WaitEvent.closeSig :: _ => false

theorem waitForResponse_deadline (events : List WaitEvent)
    (h : deadlineFirst events = true) :
    ∀ acc, Router.waitForResponse events acc = some (.error .ctxCanceled) := by
  induction events with
  | nil => cases h
  | cons e rest ih =>
    cases e with
    | deadline => intro acc; rfl
    | dataEv p =>
      intro acc
      have h' : deadlineFirst rest = true := h
      exact ih h' (acc ++ p)
    | closeSig => cases h

/-- C4 counterexample: with the tunnel, connection and stream in place and
the per-request deadline firing before the close signal, the handler answers
500 (the generic internal-error mapping of the context error), not 504. -/
theorem router_deadline_status_counterexample :
    Router.serveHTTPStatus regSample mgrWithConn1 none "example.localhost"
        [] [] [WaitEvent.deadline] 0 0 = some 500 ∧
    Router.serveHTTPStatus regSample mgrWithConn1 none "example.localhost"
        [] [] [WaitEvent.deadline] 0 0 ≠ some 504 := by
  refine ⟨rfl, by decide⟩

/-- C4 (amended): whenever the handler reaches its wait on an open
connection and the deadline fires before the close signal, the wait
surfaces the context error, `handleRequest` fails, and the handler answers
status 500 - not 504. -/
theorem router_deadline_returns_500
    (conn : Connection) (streamID : Nat) (requestData body : List Nat)
    (events : List WaitEvent) (s : Stream)
    (hclosed : conn.closed = false)
    (hs : Connection.getStream conn streamID = some s)
    (hdl : deadlineFirst events = true) :
    Router.handleRequest conn streamID requestData body events
        = some (.error .waitFailed) ∧
    Router.respond (Router.handleRequest conn streamID requestData body events)
        = some 500 := by
  have hsend : ∀ f, conn.sendFrame f = .ok () := by
    intro f
    simp [Connection.sendFrame, hclosed]
  have hw := waitForResponse_deadline events hdl []
  have hmain : Router.handleRequest conn streamID requestData body events
      = some (.error .waitFailed) := by
    unfold Router.handleRequest
    simp [hsend, hs, hw]
  exact ⟨hmain, by rw [hmain]; rfl⟩

/-- Concrete instantiation: a request bound to the open stream 1 whose
deadline fires first is answered with 500. -/
theorem router_deadline_returns_500_witness :
    Router.handleRequest connWithStream1 1 [] [] [WaitEvent.deadline]
        = some (.error .waitFailed) ∧
    Router.respond
        (Router.handleRequest connWithStream1 1 [] [] [WaitEvent.deadline])
        = some 500 :=
  router_deadline_returns_500 connWithStream1 1 [] [] [WaitEvent.deadline]
    streamSample1 rfl rfl rfl

end TunnelCore
